import Mathlib

/-!
Shallow embedding of the session-based authentication / RBAC core of the
`islamic_affair_test_project` repository (NestJS backend).

Sources embedded:
- `src/unnamed/part_011` — `UsersService` (in-memory credential store:
  `create`, `findByEmail`, `findById`, `validatePassword`, `findAll`).
- `src/backend/src/sessions/session.service.ts` — `SessionService`
  (`createSession`, `getSession`, `destroySession`).
- `src/backend/src/auth/auth.service.ts` — `AuthService`
  (`register`, `login`, `logout`, `validateSession`).
- `src/backend/src/auth/roles.guard.ts` — `RolesGuard.canActivate` and the
  cookie-based `AuthGuard.canActivate`.
- `src/backend/src/auth/auth.controller.ts` — the register/login handlers
  and the `GET /admin/users` pipeline.

Modelling conventions:
- Time is `Nat` (milliseconds since epoch); `new Date()` becomes an explicit
  `now` parameter.
- `bcrypt.hash(p, 12)` is modelled as an injective constructor `Hashed.mk`
  and `bcrypt.compare(p, h)` as equality with the re-hash: this captures the
  contract "verify succeeds iff the same secret was hashed" (idealised
  collision-freeness, fixed salt/cost).
- User ids are `userIdCounter.toString()` in the source; `Nat.repr` being
  injective, ids are modelled as the counter value itself (`Nat`).
- Session tokens are `uuidv4()` in the source, an unguessable fresh
  identifier; they are modelled as a fresh-identifier supply: the store
  carries `nextTokenId` and each creation issues it and increments.
- TypeORM repository state is explicit: each operation takes and returns the
  store; exceptions (`throw new …Exception`) become `Except` errors or an
  explicit rejected outcome where the mutated state must survive the throw.
-/

/-- Roles, from `src/unnamed/part_011` `UserRole` enum (`admin` / `user`). -/
inductive UserRole where
  | admin
  | user
deriving DecidableEq, Repr

/-- Model of a bcrypt hash: an opaque wrapper of the hashed secret. -/
structure Hashed where
  secret : String
deriving DecidableEq, Repr

/-- Model of `bcrypt.hash(password, 12)`. -/
def bcryptHash (password : String) : Hashed := ⟨password⟩

/-- Model of `bcrypt.compare(password, hash)`: true iff `hash` is the hash
of `password`. -/
def bcryptCompare (password : String) (h : Hashed) : Bool :=
  h == bcryptHash password

/-- `User` entity (`src/unnamed/part_011`, `user.entity.ts`): id, email,
password hash, role, creation time. `password` is optional because
`findAll`/`updateRole` return copies with `password: undefined`. -/
structure User where
  id : Nat
  email : String
  password : Option Hashed
  role : UserRole
  createdAt : Nat
deriving DecidableEq, Repr

/-- State of `UsersService` (`src/unnamed/part_011` lines 254-256):
`private users: User[] = []; private userIdCounter = 1;`. -/
structure UsersState where
  users : List User
  userIdCounter : Nat
deriving DecidableEq, Repr

namespace UsersService

/-- Initial `UsersService` state: no users, counter at 1. -/
def initial : UsersState := ⟨[], 1⟩

/-- `UsersService.create` (`src/unnamed/part_011` lines 258-276): hash the
password, make the user admin iff the store is empty, assign the counter as
id, push, increment the counter. -/
def create (st : UsersState) (email password : String) (now : Nat) :
    UsersState × User :=
  let hashedPassword := bcryptHash password
  let role := if st.users.length == 0 then UserRole.admin else UserRole.user
  let user : User :=
    { id := st.userIdCounter, email := email, password := some hashedPassword,
      role := role, createdAt := now }
  (⟨st.users ++ [user], st.userIdCounter + 1⟩, user)

/-- `UsersService.findByEmail`: first user with the given email. -/
def findByEmail (st : UsersState) (email : String) : Option User :=
  st.users.find? (fun u => u.email == email)

/-- `UsersService.findById`: first user with the given id. -/
def findById (st : UsersState) (id : Nat) : Option User :=
  st.users.find? (fun u => u.id == id)

/-- `UsersService.validatePassword` (`src/unnamed/part_011` lines 286-288):
`bcrypt.compare(password, user.password)`; comparing against an absent
(stripped) password field fails. -/
def validatePassword (user : User) (password : String) : Bool :=
  match user.password with
  | some h => bcryptCompare password h
  | none => false

/-- `UsersService.findAll` (`src/unnamed/part_011` lines 290-292):
`this.users.map(user => ({ ...user, password: undefined }))`. -/
def findAll (st : UsersState) : List User :=
  st.users.map (fun u => { u with password := none })

end UsersService

/-- `Session` entity (`src/backend/src/sessions/session.entity.ts`):
token id, owning user, expiry, creation time. -/
structure Session where
  id : Nat
  userId : Nat
  expiresAt : Nat
  createdAt : Nat
deriving DecidableEq, Repr

/-- State of the session repository, plus the fresh-token supply modelling
`uuidv4()`. -/
structure SessionsState where
  sessions : List Session
  nextTokenId : Nat
deriving DecidableEq, Repr

namespace SessionService

/-- Empty session store. -/
def initial : SessionsState := ⟨[], 0⟩

/-- Session TTL: `24 * 60 * 60 * 1000` ms
(`src/backend/src/sessions/session.service.ts` line 19). -/
def sessionTTL : Nat := 24 * 60 * 60 * 1000

/-- `SessionService.createSession` (`session.service.ts` lines 14-30):
delete every session of `userId`, then insert a fresh-token session with
`expiresAt = now + 24h`. -/
def createSession (st : SessionsState) (userId : Nat) (now : Nat) :
    SessionsState × Nat :=
  let remaining := st.sessions.filter (fun s => s.userId != userId)
  let sessionId := st.nextTokenId
  let expiresAt := now + sessionTTL
  (⟨remaining ++ [{ id := sessionId, userId := userId,
                    expiresAt := expiresAt, createdAt := now }],
    st.nextTokenId + 1⟩,
   sessionId)

/-- `SessionService.getSession` (`session.service.ts` lines 32-43): look up
by token; absent, or expired (`expiresAt < now`), yields `none`; an expired
record found on read is deleted. -/
def getSession (st : SessionsState) (sessionId : Nat) (now : Nat) :
    SessionsState × Option Session :=
  match st.sessions.find? (fun s => s.id == sessionId) with
  | none => (st, none)
  | some s =>
    if s.expiresAt < now then
      (⟨st.sessions.filter (fun x => x.id != sessionId), st.nextTokenId⟩, none)
    else
      (st, some s)

/-- `SessionService.destroySession` (`session.service.ts` lines 45-47):
delete by token; idempotent. -/
def destroySession (st : SessionsState) (sessionId : Nat) : SessionsState :=
  ⟨st.sessions.filter (fun x => x.id != sessionId), st.nextTokenId⟩

end SessionService

/-- The application's error taxonomy (NestJS exceptions thrown by the core):
`ConflictException`, `UnauthorizedException`, `ForbiddenException`,
`NotFoundException`, each carrying its message. -/
inductive AppError where
  | conflict (msg : String)
  | unauthorized (msg : String)
  | forbidden (msg : String)
  | notFound (msg : String)
deriving DecidableEq, Repr

/-- Combined backend state: the credential store and the session store. -/
structure AppState where
  users : UsersState
  sessions : SessionsState
deriving DecidableEq, Repr

namespace AuthService

/-- Fresh backend state: empty credential store, empty session store. -/
def initialApp : AppState := ⟨UsersService.initial, SessionService.initial⟩

/-- `AuthService.register` (`src/backend/src/auth/auth.service.ts` lines
13-20): reject a duplicate email with `ConflictException('Email already
exists')`, otherwise delegate to `UsersService.create`. The throw happens
before any mutation, so the error case leaves the state with the caller
unchanged. -/
def register (st : AppState) (email password : String) (now : Nat) :
    Except AppError (AppState × User) :=
  match UsersService.findByEmail st.users email with
  | some _ => .error (.conflict "Email already exists")
  | none =>
    let (us, user) := UsersService.create st.users email password now
    .ok ({ st with users := us }, user)

/-- `AuthService.login` (`auth.service.ts` lines 22-30): the source guards
`if (!user || !validatePassword(...))` and throws one
`UnauthorizedException('Invalid credentials')` for both the unknown-email
and the wrong-password case; on success it creates a session and returns
the full user entity together with the token. -/
def login (st : AppState) (email password : String) (now : Nat) :
    Except AppError (AppState × User × Nat) :=
  match UsersService.findByEmail st.users email with
  | none => .error (.unauthorized "Invalid credentials")
  | some user =>
    if !UsersService.validatePassword user password then
      .error (.unauthorized "Invalid credentials")
    else
      let (ss, sessionId) := SessionService.createSession st.sessions user.id now
      .ok ({ st with sessions := ss }, user, sessionId)

/-- `AuthService.logout` (`auth.service.ts` lines 32-34). -/
def logout (st : AppState) (sessionId : Nat) : AppState :=
  { st with sessions := SessionService.destroySession st.sessions sessionId }

/-- `AuthService.validateSession` (`auth.service.ts` lines 36-41): resolve
the token (which may purge an expired record, hence the returned state),
then look the owning user up by id. -/
def validateSession (st : AppState) (sessionId : Nat) (now : Nat) :
    AppState × Option User :=
  let r := SessionService.getSession st.sessions sessionId now
  let st1 := { st with sessions := r.1 }
  match r.2 with
  | none => (st1, none)
  | some s => (st1, UsersService.findById st1.users s.userId)

end AuthService

/-- The per-request context the guards read and write. `cookieSessionId`
models `request.cookies?.sessionId` (populated by the `cookie-parser`
middleware installed in `main.ts`); `sessionUserId` models
`request.session?.userId` — no `express-session` middleware is installed by
`main.ts` (`src/unnamed/part_000`), so in every actual request this field is
absent; `user` models `request.user`, attached by the guards. -/
structure Request where
  cookieSessionId : Option Nat
  sessionUserId : Option Nat
  user : Option User
deriving DecidableEq, Repr

/-- Outcome of a guard: pass (with the updated request context) or throw. -/
inductive GuardOutcome where
  | pass (req : Request)
  | reject (err : AppError)
deriving DecidableEq, Repr

namespace Guards

/-- `AuthGuard.canActivate` (`src/backend/src/auth/roles.guard.ts` lines
46-61, the cookie-based guard): read the `sessionId` cookie; missing ⇒
`UnauthorizedException('No session found')`; `validateSession` miss ⇒
`UnauthorizedException('Invalid session')`; otherwise attach the user.
The repository mutation inside `validateSession` (eager purge of an expired
record) persists even when the guard then throws, so the state is returned
alongside the outcome. -/
def authGuard (st : AppState) (req : Request) (now : Nat) :
    AppState × GuardOutcome :=
  match req.cookieSessionId with
  | none => (st, .reject (.unauthorized "No session found"))
  | some sessionId =>
    let r := AuthService.validateSession st sessionId now
    match r.2 with
    | none => (r.1, .reject (.unauthorized "Invalid session"))
    | some u => (r.1, .pass { req with user := some u })

/-- `RolesGuard.canActivate` (`src/backend/src/auth/roles.guard.ts` lines
13-38): no declared roles ⇒ pass through; read the user id from
`request.session?.userId`; missing ⇒ `ForbiddenException('Not
authenticated')`; unknown id ⇒ `ForbiddenException('User not found')`;
role not in the required set ⇒ `ForbiddenException('Insufficient
permissions')`; otherwise attach the user and pass. Its only service call,
`usersService.findById`, is a read, so it takes no state in or out. -/
def rolesGuard (st : AppState) (req : Request)
    (requiredRoles : Option (List UserRole)) : GuardOutcome :=
  match requiredRoles with
  | none => .pass req
  | some roles =>
    match req.sessionUserId with
    | none => .reject (.forbidden "Not authenticated")
    | some userId =>
      match UsersService.findById st.users userId with
      | none => .reject (.forbidden "User not found")
      | some user =>
        if roles.contains user.role then .pass { req with user := some user }
        else .reject (.forbidden "Insufficient permissions")

end Guards

namespace AuthController

/-- The `GET /admin/users` pipeline (`src/backend/src/auth/auth.controller.ts`
lines 107-118): `@UseGuards(AuthGuard, RolesGuard)` with
`@Roles(UserRole.ADMIN)`; if both guards pass, return
`usersService.findAll()`. -/
def adminUsersEndpoint (st : AppState) (req : Request) (now : Nat) :
    AppState × Except AppError (List User) :=
  let r := Guards.authGuard st req now
  match r.2 with
  | .reject e => (r.1, .error e)
  | .pass req1 =>
    match Guards.rolesGuard r.1 req1 (some [UserRole.admin]) with
    | .reject e => (r.1, .error e)
    | .pass _ => (r.1, .ok (UsersService.findAll r.1.users))

/-- Body of a successful register/login response: the controller picks only
`id`, `email`, `role` out of the user entity
(`auth.controller.ts` lines 36-39 and 74-77). -/
structure PublicUser where
  id : Nat
  email : String
  role : UserRole
deriving DecidableEq, Repr

/-- Projection the controller applies before answering:
`{ id: user.id, email: user.email, role: user.role }`. -/
def toPublic (u : User) : PublicUser := ⟨u.id, u.email, u.role⟩

/-- `AuthController.register` (`auth.controller.ts` lines 25-40): run
`authService.register`, then immediately `authService.login` with the same
credentials, set the `sessionId` cookie to the returned token, and answer
with the projected user. Result: new state, cookie value, response body. -/
def registerEndpoint (st : AppState) (email password : String) (now : Nat) :
    Except AppError (AppState × Nat × PublicUser) :=
  match AuthService.register st email password now with
  | .error e => .error e
  | .ok (st1, user) =>
    match AuthService.login st1 email password now with
    | .error e => .error e
    | .ok (st2, _, sessionId) =>
      .ok (st2, sessionId, toPublic user)

/-- `AuthController.login` (`auth.controller.ts` lines 64-78): run
`authService.login`, set the cookie, answer with the projected user. -/
def loginEndpoint (st : AppState) (email password : String) (now : Nat) :
    Except AppError (AppState × Nat × PublicUser) :=
  match AuthService.login st email password now with
  | .error e => .error e
  | .ok (st1, user, sessionId) => .ok (st1, sessionId, toPublic user)

end AuthController

/-- One registration attempt in a system history: the email, the password
and the time of the call. -/
structure RegEvent where
  email : String
  password : String
  now : Nat
deriving DecidableEq, Repr

namespace AuthService

/-- Apply one registration attempt: a thrown `ConflictException` leaves the
state unchanged (`register` throws before any mutation). -/
def regStep (st : AppState) (ev : RegEvent) : AppState :=
  match register st ev.email ev.password ev.now with
  | .ok (st1, _) => st1
  | .error _ => st

/-- A history of registration attempts, applied in order. -/
def applyRegs (st : AppState) (evs : List RegEvent) : AppState :=
  evs.foldl regStep st

end AuthService

namespace SessionService

/-- The operations through which the application touches the session store:
`login` calls `createSession`, `validateSession` (hence each guarded
request) calls `getSession`, `logout` calls `destroySession`. -/
inductive SOp where
  | create (userId : Nat) (now : Nat)
  | get (sessionId : Nat) (now : Nat)
  | destroy (sessionId : Nat)
deriving DecidableEq, Repr

/-- Effect of one session-store operation on the store. -/
def applySOp (st : SessionsState) : SOp → SessionsState
  | .create u n => (createSession st u n).1
  | .get sid n => (getSession st sid n).1
  | .destroy sid => destroySession st sid

/-- A sequence of session-store operations, applied in order. -/
def applySOps (st : SessionsState) (ops : List SOp) : SessionsState :=
  ops.foldl applySOp st

/-- Number of session records owned by a given identity. -/
def countFor (st : SessionsState) (u : Nat) : Nat :=
  (st.sessions.filter (fun s => s.userId == u)).length

/-- Every stored token was issued by the fresh-token supply: all ids are
below `nextTokenId`. Holds in every reachable store. -/
def BoundedIds (st : SessionsState) : Prop :=
  ∀ s ∈ st.sessions, s.id < st.nextTokenId

/-- The identity owning a stored token, if the token is present. -/
def ownerOf (st : SessionsState) (t : Nat) : Option Nat :=
  (st.sessions.find? (fun s => s.id == t)).map (fun s => s.userId)

/-- Token `t` resolves to identity `u` at time `now`: `getSession` returns
a session record owned by `u`. -/
def resolvesTo (st : SessionsState) (t : Nat) (u : Nat) (now : Nat) : Prop :=
  ((getSession st t now).2).map (fun s => s.userId) = some u

end SessionService

/-! ### Helper lemmas about the credential store -/

/-- The user record `UsersService.create` builds. -/
def mkUser (st : UsersState) (e p : String) (n : Nat) : User :=
  { id := st.userIdCounter, email := e, password := some (bcryptHash p),
    role := if st.users.length == 0 then UserRole.admin else UserRole.user,
    createdAt := n }

lemma create_eq (st : UsersState) (e p : String) (n : Nat) :
    UsersService.create st e p n =
      (⟨st.users ++ [mkUser st e p n], st.userIdCounter + 1⟩, mkUser st e p n) := rfl

lemma register_of_found {st : AppState} {e : String} {u : User}
    (h : UsersService.findByEmail st.users e = some u) (p : String) (n : Nat) :
    AuthService.register st e p n = .error (.conflict "Email already exists") := by
  unfold AuthService.register
  rw [h]

lemma register_of_notFound {st : AppState} {e : String}
    (h : UsersService.findByEmail st.users e = none) (p : String) (n : Nat) :
    AuthService.register st e p n =
      .ok ({ st with users := ⟨st.users.users ++ [mkUser st.users e p n],
                               st.users.userIdCounter + 1⟩ },
           mkUser st.users e p n) := by
  unfold AuthService.register
  rw [h]
  rfl

lemma regStep_of_found {st : AppState} {ev : RegEvent} {u : User}
    (h : UsersService.findByEmail st.users ev.email = some u) :
    AuthService.regStep st ev = st := by
  unfold AuthService.regStep
  rw [register_of_found h]

lemma regStep_of_notFound {st : AppState} {ev : RegEvent}
    (h : UsersService.findByEmail st.users ev.email = none) :
    AuthService.regStep st ev =
      { st with users := ⟨st.users.users ++ [mkUser st.users ev.email ev.password ev.now],
                          st.users.userIdCounter + 1⟩ } := by
  unfold AuthService.regStep
  rw [register_of_notFound h]

/-- The first stored identity (if any) is privileged and every later one is
standard. -/
def firstAdminOnly : List User → Prop
  | [] => True
  | u :: rest => u.role = UserRole.admin ∧ ∀ v ∈ rest, v.role = UserRole.user

lemma firstAdminOnly_append {l : List User} {u : User} (hl : firstAdminOnly l)
    (hrole : u.role = if l.length == 0 then UserRole.admin else UserRole.user) :
    firstAdminOnly (l ++ [u]) := by
  cases l with
  | nil =>
    refine ⟨by simpa using hrole, ?_⟩
    intro v hv
    simp at hv
  | cons a as =>
    obtain ⟨ha, has⟩ := hl
    have hcond : ((a :: as).length == 0) = false := by simp
    refine ⟨ha, ?_⟩
    intro v hv
    rcases List.mem_append.1 hv with h | h
    · exact has v h
    · have hvu : v = u := by simpa using h
      subst hvu
      rw [hrole, hcond]
      simp

lemma firstAdminOnly_regStep {st : AppState} (h : firstAdminOnly st.users.users)
    (ev : RegEvent) : firstAdminOnly (AuthService.regStep st ev).users.users := by
  cases hf : UsersService.findByEmail st.users ev.email with
  | some u => rw [regStep_of_found hf]; exact h
  | none => rw [regStep_of_notFound hf]; exact firstAdminOnly_append h rfl

lemma firstAdminOnly_applyRegs (evs : List RegEvent) :
    ∀ st : AppState, firstAdminOnly st.users.users →
      firstAdminOnly (AuthService.applyRegs st evs).users.users := by
  induction evs with
  | nil => intro st h; exact h
  | cons e es ih =>
    intro st h
    exact ih _ (firstAdminOnly_regStep h e)

lemma filter_admin_of_firstAdminOnly {l : List User} (h : firstAdminOnly l)
    (hne : l ≠ []) :
    (l.filter (fun u => u.role == UserRole.admin)).length = 1 := by
  cases l with
  | nil => exact absurd rfl hne
  | cons a as =>
    obtain ⟨ha, has⟩ := h
    have h1 : (a.role == UserRole.admin) = true := by rw [ha]; decide
    have h2 : as.filter (fun u => u.role == UserRole.admin) = [] := by
      refine List.filter_eq_nil_iff.2 ?_
      intro v hv
      rw [has v hv]
      simp
    simp [List.filter_cons, h1, h2]

/-- Claim C1: starting from an empty credential store, along every history of
registrations the first identity ever created is assigned the `admin` role at
creation, every subsequently created identity starts with the `user` role,
and immediately after the first successful registration exactly one identity
holds the `admin` role — the one that registration created. -/
theorem bootstrap_first_admin (evs : List RegEvent) :
    firstAdminOnly (AuthService.applyRegs AuthService.initialApp evs).users.users
    ∧ ((AuthService.applyRegs AuthService.initialApp evs).users.users ≠ [] →
        (((AuthService.applyRegs AuthService.initialApp evs).users.users.filter
          (fun u => u.role == UserRole.admin)).length = 1))
    ∧ (∀ (st0 : AppState) (e p : String) (n : Nat), st0.users.users = [] →
        ∃ (st1 : AppState) (u : User),
          AuthService.register st0 e p n = .ok (st1, u) ∧
          u.role = UserRole.admin ∧ st1.users.users = [u])
    ∧ (∀ (st0 : AppState) (e p : String) (n : Nat) (st1 : AppState) (u : User),
        st0.users.users ≠ [] → AuthService.register st0 e p n = .ok (st1, u) →
        u.role = UserRole.user) := by
  refine ⟨?_, ?_, ?_, ?_⟩
  · exact firstAdminOnly_applyRegs evs AuthService.initialApp trivial
  · intro hne
    exact filter_admin_of_firstAdminOnly
      (firstAdminOnly_applyRegs evs AuthService.initialApp trivial) hne
  · intro st0 e p n hempty
    have hf : UsersService.findByEmail st0.users e = none := by
      unfold UsersService.findByEmail
      rw [hempty]
      rfl
    refine ⟨_, _, register_of_notFound hf p n, ?_, ?_⟩
    · unfold mkUser
      rw [hempty]
      rfl
    · simp [hempty]
  · intro st0 e p n st1 u hne hreg
    cases hf : UsersService.findByEmail st0.users e with
    | some w => rw [register_of_found hf] at hreg; cases hreg
    | none =>
      rw [register_of_notFound hf] at hreg
      have hu : u = mkUser st0.users e p n := by
        injection hreg with h1
        injection h1 with _ h2
        exact h2.symm
      subst hu
      unfold mkUser
      have hlen : (st0.users.users.length == 0) = false := by
        cases hul : st0.users.users with
        | nil => exact absurd hul hne
        | cons a as => rfl
      rw [hlen]
      simp

/-- Concrete run of the bootstrap theorem: a two-registration history has
exactly one admin, and the very first registration creates it. -/
theorem bootstrap_first_admin_witness :
    (((AuthService.applyRegs AuthService.initialApp
        [⟨"a@x.com", "s1", 0⟩, ⟨"b@x.com", "s2", 1⟩]).users.users.filter
        (fun u => u.role == UserRole.admin)).length = 1)
    ∧ (∃ (st1 : AppState) (u : User),
        AuthService.register AuthService.initialApp "a@x.com" "s1" 0 = .ok (st1, u)
        ∧ u.role = UserRole.admin ∧ st1.users.users = [u]) :=
  ⟨(bootstrap_first_admin [⟨"a@x.com", "s1", 0⟩, ⟨"b@x.com", "s2", 1⟩]).2.1 (by decide),
   (bootstrap_first_admin []).2.2.1 AuthService.initialApp "a@x.com" "s1" 0 rfl⟩

/-! ### Claims C5, C6, C7: login / registration error handling -/

lemma find?_append_sing {α : Type} (p : α → Bool) {l : List α}
    (h : l.find? p = none) (a : α) :
    (l ++ [a]).find? p = if p a then some a else none := by
  rw [List.find?_append, h, Option.none_or]
  cases hp : p a <;> simp [List.find?_cons, hp]

lemma nodupEmails_regStep {st : AppState}
    (h : (st.users.users.map (fun u => u.email)).Nodup) (ev : RegEvent) :
    ((AuthService.regStep st ev).users.users.map (fun u => u.email)).Nodup := by
  cases hf : UsersService.findByEmail st.users ev.email with
  | some u => rw [regStep_of_found hf]; exact h
  | none =>
    rw [regStep_of_notFound hf]
    have hnotin : ev.email ∉ st.users.users.map (fun u => u.email) := by
      intro hmem
      obtain ⟨u, hu, hue⟩ := List.mem_map.1 hmem
      exact List.find?_eq_none.1 hf u hu (beq_iff_eq.mpr hue)
    show ((st.users.users ++ [mkUser st.users ev.email ev.password ev.now]).map
      (fun u => u.email)).Nodup
    rw [List.map_append]
    refine List.nodup_append.2 ⟨h, by simp, ?_⟩
    intro x hx hx2
    have hxe : x = ev.email := by simpa [mkUser] using hx2
    subst hxe
    exact hnotin hx

lemma nodupEmails_applyRegs (evs : List RegEvent) :
    ∀ st : AppState, (st.users.users.map (fun u => u.email)).Nodup →
      ((AuthService.applyRegs st evs).users.users.map (fun u => u.email)).Nodup := by
  induction evs with
  | nil => intro st h; exact h
  | cons e es ih => intro st h; exact ih _ (nodupEmails_regStep h e)

/-- Claim C6: registering an already-used handle fails with the conflict
error and leaves the credential store unchanged; consequently, after any
history of registration attempts no two identities share an email. -/
theorem register_duplicate_conflict :
    (∀ (st : AppState) (h s : String) (n : Nat) (u : User),
        UsersService.findByEmail st.users h = some u →
        AuthService.register st h s n = .error (.conflict "Email already exists")
        ∧ AuthService.regStep st ⟨h, s, n⟩ = st)
    ∧ (∀ evs : List RegEvent,
        ((AuthService.applyRegs AuthService.initialApp evs).users.users.map
          (fun u => u.email)).Nodup) := by
  constructor
  · intro st h s n u hf
    exact ⟨register_of_found hf s n, regStep_of_found hf⟩
  · intro evs
    exact nodupEmails_applyRegs evs AuthService.initialApp (by simp [AuthService.initialApp, UsersService.initial])

/-- Concrete run of the duplicate-registration theorem: re-registering
`a@x.com` fails with the conflict error and changes nothing. -/
theorem register_duplicate_conflict_witness :
    AuthService.register
        (AuthService.applyRegs AuthService.initialApp [⟨"a@x.com", "s1", 0⟩])
        "a@x.com" "s2" 5
      = .error (.conflict "Email already exists")
    ∧ AuthService.regStep
        (AuthService.applyRegs AuthService.initialApp [⟨"a@x.com", "s1", 0⟩])
        ⟨"a@x.com", "s2", 5⟩
      = AuthService.applyRegs AuthService.initialApp [⟨"a@x.com", "s1", 0⟩] :=
  register_duplicate_conflict.1
    (AuthService.applyRegs AuthService.initialApp [⟨"a@x.com", "s1", 0⟩])
    "a@x.com" "s2" 5
    { id := 1, email := "a@x.com", password := some (bcryptHash "s1"),
      role := UserRole.admin, createdAt := 0 }
    (by decide)

/-- Claim C5: login with an unknown handle and login with a known handle but
wrong secret fail with the same error value,
`UnauthorizedException('Invalid credentials')`. -/
theorem login_uniform_error :
    (∀ (st : AppState) (h s : String) (n : Nat),
        UsersService.findByEmail st.users h = none →
        AuthService.login st h s n = .error (.unauthorized "Invalid credentials"))
    ∧ (∀ (st : AppState) (h s : String) (n : Nat) (u : User),
        UsersService.findByEmail st.users h = some u →
        UsersService.validatePassword u s = false →
        AuthService.login st h s n = .error (.unauthorized "Invalid credentials")) := by
  constructor
  · intro st h s n hf
    unfold AuthService.login
    rw [hf]
  · intro st h s n u hf hbad
    unfold AuthService.login
    rw [hf]
    simp [hbad]

/-- Concrete run of the uniform-error theorem: with only `a@x.com`
registered, an unknown handle and a wrong password produce the same error. -/
theorem login_uniform_error_witness :
    AuthService.login
        (AuthService.applyRegs AuthService.initialApp [⟨"a@x.com", "s1", 0⟩])
        "b@x.com" "anything" 5
      = .error (.unauthorized "Invalid credentials")
    ∧ AuthService.login
        (AuthService.applyRegs AuthService.initialApp [⟨"a@x.com", "s1", 0⟩])
        "a@x.com" "wrong" 5
      = .error (.unauthorized "Invalid credentials") :=
  ⟨login_uniform_error.1
      (AuthService.applyRegs AuthService.initialApp [⟨"a@x.com", "s1", 0⟩])
      "b@x.com" "anything" 5 (by decide),
   login_uniform_error.2
      (AuthService.applyRegs AuthService.initialApp [⟨"a@x.com", "s1", 0⟩])
      "a@x.com" "wrong" 5
      { id := 1, email := "a@x.com", password := some (bcryptHash "s1"),
        role := UserRole.admin, createdAt := 0 }
      (by decide) (by decide)⟩

lemma login_of_found_good {st : AppState} {e p : String} {u : User} {n : Nat}
    (hf : UsersService.findByEmail st.users e = some u)
    (hgood : UsersService.validatePassword u p = true) :
    AuthService.login st e p n =
      .ok ({ st with sessions := (SessionService.createSession st.sessions u.id n).1 },
           u, (SessionService.createSession st.sessions u.id n).2) := by
  unfold AuthService.login
  rw [hf]
  simp [hgood]

/-- Claim C7: a successful `register(h, s)` followed immediately by
`login(h, s)` succeeds and returns an identity with the same `id` and
`email` as the one registration created. -/
theorem register_login_roundtrip (st : AppState) (h s : String) (n n2 : Nat)
    (st1 : AppState) (u : User)
    (hreg : AuthService.register st h s n = .ok (st1, u)) :
    ∃ (st2 : AppState) (u2 : User) (tok : Nat),
      AuthService.login st1 h s n2 = .ok (st2, u2, tok) ∧
      u2.id = u.id ∧ u2.email = u.email := by
  cases hf : UsersService.findByEmail st.users h with
  | some w => rw [register_of_found hf] at hreg; cases hreg
  | none =>
    rw [register_of_notFound hf] at hreg
    injection hreg with hpair
    injection hpair with hst hu
    have hf0 : List.find? (fun v => v.email == h) st.users.users = none := hf
    have hfind : UsersService.findByEmail
        (⟨st.users.users ++ [mkUser st.users h s n],
          st.users.userIdCounter + 1⟩ : UsersState) h
        = some (mkUser st.users h s n) := by
      show List.find? (fun v => v.email == h)
        (st.users.users ++ [mkUser st.users h s n]) = some (mkUser st.users h s n)
      rw [find?_append_sing _ hf0]
      simp [mkUser]
    have hgood : UsersService.validatePassword (mkUser st.users h s n) s = true := by
      simp [UsersService.validatePassword, mkUser, bcryptCompare]
    rw [← hst, ← hu]
    exact ⟨_, _, _, login_of_found_good hfind hgood, rfl, rfl⟩

/-- Concrete run of the round-trip theorem: register then login with
`a@x.com` / `s1` starting from the empty store. -/
theorem register_login_roundtrip_witness :
    ∃ (st2 : AppState) (u2 : User) (tok : Nat),
      AuthService.login
          { users := ⟨[{ id := 1, email := "a@x.com",
                         password := some (bcryptHash "s1"),
                         role := UserRole.admin, createdAt := 0 }], 2⟩,
            sessions := SessionService.initial }
          "a@x.com" "s1" 7
        = .ok (st2, u2, tok) ∧
      u2.id = 1 ∧ u2.email = "a@x.com" :=
  register_login_roundtrip AuthService.initialApp "a@x.com" "s1" 0 7
    { users := ⟨[{ id := 1, email := "a@x.com",
                   password := some (bcryptHash "s1"),
                   role := UserRole.admin, createdAt := 0 }], 2⟩,
      sessions := SessionService.initial }
    { id := 1, email := "a@x.com", password := some (bcryptHash "s1"),
      role := UserRole.admin, createdAt := 0 }
    rfl

/-! ### Claims C2, C4: session store invariants and expiration -/

namespace SessionService

lemma createSession_fst (st : SessionsState) (u n : Nat) :
    (createSession st u n).1 =
      ⟨st.sessions.filter (fun s => s.userId != u) ++
        [{ id := st.nextTokenId, userId := u,
           expiresAt := n + sessionTTL, createdAt := n }],
       st.nextTokenId + 1⟩ := rfl

lemma createSession_snd (st : SessionsState) (u n : Nat) :
    (createSession st u n).2 = st.nextTokenId := rfl

lemma getSession_fst_cases (st : SessionsState) (sid n : Nat) :
    (getSession st sid n).1 = st ∨
    (getSession st sid n).1 =
      ⟨st.sessions.filter (fun x => x.id != sid), st.nextTokenId⟩ := by
  unfold getSession
  cases hf : st.sessions.find? (fun s => s.id == sid) with
  | none => left; rfl
  | some s =>
    by_cases he : s.expiresAt < n
    · right; simp [he]
    · left; simp [he]

lemma length_filter_sublist {α : Type} (p q : α → Bool) (l : List α) :
    ((l.filter q).filter p).length ≤ (l.filter p).length :=
  ((List.filter_sublist l).filter p).length_le

lemma countFor_initial (u : Nat) : countFor initial u = 0 := rfl

lemma countFor_le_one_applySOp {st : SessionsState}
    (h : ∀ u, countFor st u ≤ 1) (op : SOp) :
    ∀ u, countFor (applySOp st op) u ≤ 1 := by
  intro u
  cases op with
  | create u0 n =>
    show countFor (createSession st u0 n).1 u ≤ 1
    rw [createSession_fst]
    unfold countFor
    rw [List.filter_append, List.length_append]
    by_cases hu : u = u0
    · subst hu
      have h1 : (st.sessions.filter (fun s => s.userId != u)).filter
          (fun s => s.userId == u) = [] := by
        rw [List.filter_filter]
        refine List.filter_eq_nil_iff.2 ?_
        intro s hs
        simp [bne]
      rw [h1]
      simp
    · have h2 : List.filter (fun (s : Session) => s.userId == u)
          [{ id := st.nextTokenId, userId := u0,
             expiresAt := n + sessionTTL, createdAt := n }] = [] := by
        refine List.filter_eq_nil_iff.2 ?_
        intro s hs
        have hs' : s = { id := st.nextTokenId, userId := u0,
                         expiresAt := n + sessionTTL, createdAt := n } := by
          simpa using hs
        subst hs'
        simp [beq_iff_eq]
        exact fun hc => hu hc.symm
      rw [h2]
      have h3 := length_filter_sublist (fun s => s.userId == u)
        (fun s => s.userId != u0) st.sessions
      have h4 : countFor st u ≤ 1 := h u
      unfold countFor at h4
      simpa using le_trans h3 h4
  | get sid n =>
    show countFor (getSession st sid n).1 u ≤ 1
    rcases getSession_fst_cases st sid n with hc | hc <;> rw [hc]
    · exact h u
    · unfold countFor
      have h4 : countFor st u ≤ 1 := h u
      unfold countFor at h4
      exact le_trans (length_filter_sublist _ _ _) h4
  | destroy sid =>
    show countFor (destroySession st sid) u ≤ 1
    unfold destroySession countFor
    have h4 : countFor st u ≤ 1 := h u
    unfold countFor at h4
    exact le_trans (length_filter_sublist _ _ _) h4

lemma countFor_le_one_applySOps (ops : List SOp) :
    ∀ st : SessionsState, (∀ u, countFor st u ≤ 1) →
      ∀ u, countFor (applySOps st ops) u ≤ 1 := by
  induction ops with
  | nil => intro st h; exact h
  | cons op rest ih => intro st h; exact ih _ (countFor_le_one_applySOp h op)

lemma boundedIds_applySOp {st : SessionsState} (h : BoundedIds st) (op : SOp) :
    BoundedIds (applySOp st op) := by
  cases op with
  | create u0 n =>
    show BoundedIds (createSession st u0 n).1
    rw [createSession_fst]
    intro s hs
    rcases List.mem_append.1 hs with hmem | hmem
    · exact Nat.lt_succ_of_lt (h s (List.mem_of_mem_filter hmem))
    · have hs' : s = { id := st.nextTokenId, userId := u0,
                       expiresAt := n + sessionTTL, createdAt := n } := by
        simpa using hmem
      rw [hs']
      exact Nat.lt_succ_self _
  | get sid n =>
    show BoundedIds (getSession st sid n).1
    rcases getSession_fst_cases st sid n with hc | hc <;> rw [hc]
    · exact h
    · intro s hs
      exact h s (List.mem_of_mem_filter hs)
  | destroy sid =>
    show BoundedIds (destroySession st sid)
    intro s hs
    exact h s (List.mem_of_mem_filter hs)

/-- Stored tokens are pairwise distinct (the token is the primary key). -/
def UniqueIds (st : SessionsState) : Prop :=
  (st.sessions.map (fun s => s.id)).Nodup

lemma uniqueIds_applySOp {st : SessionsState} (hB : BoundedIds st)
    (hU : UniqueIds st) (op : SOp) : UniqueIds (applySOp st op) := by
  cases op with
  | create u0 n =>
    show UniqueIds (createSession st u0 n).1
    rw [createSession_fst]
    unfold UniqueIds
    rw [List.map_append]
    refine List.nodup_append.2 ⟨?_, by simp, ?_⟩
    · exact List.Nodup.sublist (List.Sublist.map _ (List.filter_sublist _)) hU
    · intro x hx hx2
      have hxid : x = st.nextTokenId := by simpa using hx2
      subst hxid
      obtain ⟨s, hs, hsid⟩ := List.mem_map.1 hx
      have hlt := hB s (List.mem_of_mem_filter hs)
      rw [hsid] at hlt
      exact Nat.lt_irrefl _ hlt
  | get sid n =>
    show UniqueIds (getSession st sid n).1
    rcases getSession_fst_cases st sid n with hc | hc <;> rw [hc]
    · exact hU
    · exact List.Nodup.sublist (List.Sublist.map _ (List.filter_sublist _)) hU
  | destroy sid =>
    show UniqueIds (destroySession st sid)
    exact List.Nodup.sublist (List.Sublist.map _ (List.filter_sublist _)) hU

/-- Well-formedness of the session store: issued tokens are below the
supply counter and pairwise distinct. -/
def WF (st : SessionsState) : Prop := BoundedIds st ∧ UniqueIds st

lemma wf_initial : WF initial :=
  ⟨fun s hs => absurd hs (List.not_mem_nil s), List.nodup_nil⟩

lemma wf_applySOp {st : SessionsState} (h : WF st) (op : SOp) :
    WF (applySOp st op) :=
  ⟨boundedIds_applySOp h.1 op, uniqueIds_applySOp h.1 h.2 op⟩

lemma wf_applySOps (ops : List SOp) :
    ∀ st : SessionsState, WF st → WF (applySOps st ops) := by
  induction ops with
  | nil => intro st h; exact h
  | cons op rest ih => intro st h; exact ih _ (wf_applySOp h op)

/-- Token `t` is gone for good: it is below the supply counter (so it can
never be re-issued) and absent from the store. -/
def Retired (t : Nat) (st : SessionsState) : Prop :=
  BoundedIds st ∧ t < st.nextTokenId ∧ ∀ s ∈ st.sessions, s.id ≠ t

lemma retired_applySOp {t : Nat} {st : SessionsState}
    (h : Retired t st) (op : SOp) : Retired t (applySOp st op) := by
  obtain ⟨hB, ht, hmem⟩ := h
  refine ⟨boundedIds_applySOp hB op, ?_, ?_⟩
  · cases op with
    | create u0 n => exact Nat.lt_succ_of_lt ht
    | get sid n =>
      show t < (getSession st sid n).1.nextTokenId
      rcases getSession_fst_cases st sid n with hc | hc <;> rw [hc] <;> exact ht
    | destroy sid => exact ht
  · cases op with
    | create u0 n =>
      show ∀ s ∈ (createSession st u0 n).1.sessions, s.id ≠ t
      rw [createSession_fst]
      intro s hs
      rcases List.mem_append.1 hs with hm | hm
      · exact hmem s (List.mem_of_mem_filter hm)
      · have hs' : s = { id := st.nextTokenId, userId := u0,
                         expiresAt := n + sessionTTL, createdAt := n } := by
          simpa using hm
        rw [hs']
        exact ne_of_gt ht
    | get sid n =>
      show ∀ s ∈ (getSession st sid n).1.sessions, s.id ≠ t
      rcases getSession_fst_cases st sid n with hc | hc <;> rw [hc]
      · exact hmem
      · intro s hs
        exact hmem s (List.mem_of_mem_filter hs)
    | destroy sid =>
      show ∀ s ∈ (destroySession st sid).sessions, s.id ≠ t
      intro s hs
      exact hmem s (List.mem_of_mem_filter hs)

lemma retired_applySOps (ops : List SOp) {t : Nat} :
    ∀ st : SessionsState, Retired t st → Retired t (applySOps st ops) := by
  induction ops with
  | nil => intro st h; exact h
  | cons op rest ih => intro st h; exact ih _ (retired_applySOp h op)

lemma getSession_snd_none_of_notMem {st : SessionsState} {t : Nat}
    (h : ∀ s ∈ st.sessions, s.id ≠ t) (n : Nat) :
    (getSession st t n).2 = none := by
  have hf : st.sessions.find? (fun s => s.id == t) = none :=
    List.find?_eq_none.2 (fun s hs => by simpa using h s hs)
  unfold getSession
  rw [hf]

lemma getSession_snd_some {st : SessionsState} {sid n : Nat} {s : Session}
    (h : (getSession st sid n).2 = some s) :
    st.sessions.find? (fun x => x.id == sid) = some s ∧ ¬ s.expiresAt < n := by
  unfold getSession at h
  cases hf : st.sessions.find? (fun x => x.id == sid) with
  | none => rw [hf] at h; cases h
  | some w =>
    rw [hf] at h
    by_cases he : w.expiresAt < n
    · simp [he] at h
    · simp [he] at h
      subst h
      exact ⟨rfl, he⟩

lemma ownerOf_some {st : SessionsState} {t u : Nat} (h : ownerOf st t = some u) :
    ∃ s : Session, st.sessions.find? (fun x => x.id == t) = some s ∧
      s.userId = u ∧ s.id = t ∧ s ∈ st.sessions := by
  unfold ownerOf at h
  cases hf : st.sessions.find? (fun x => x.id == t) with
  | none => rw [hf] at h; cases h
  | some s =>
    rw [hf] at h
    have hu : s.userId = u := by simpa using h
    have hid := List.find?_some hf
    simp only [beq_iff_eq] at hid
    exact ⟨s, rfl, hu, hid, List.mem_of_find?_eq_some hf⟩

lemma retired_after_create {st : SessionsState} (hWF : WF st) {t u : Nat}
    (hown : ownerOf st t = some u) (n : Nat) :
    Retired t (createSession st u n).1 := by
  obtain ⟨hB, hU⟩ := hWF
  obtain ⟨s, hf, hsu, hsid, hsmem⟩ := ownerOf_some hown
  have ht : t < st.nextTokenId := hsid ▸ hB s hsmem
  refine ⟨boundedIds_applySOp hB (SOp.create u n), ?_, ?_⟩
  · rw [createSession_fst]
    exact Nat.lt_succ_of_lt ht
  · rw [createSession_fst]
    intro x hx
    rcases List.mem_append.1 hx with hm | hm
    · intro hxt
      have hxmem : x ∈ st.sessions := List.mem_of_mem_filter hm
      have hxs : x = s := by
        refine List.inj_on_of_nodup_map hU hxmem hsmem ?_
        rw [hxt, hsid]
      have hxu : (x.userId != u) = true := (List.mem_filter.1 hm).2
      rw [hxs, hsu] at hxu
      simp [bne] at hxu
    · have hx' : x = { id := st.nextTokenId, userId := u,
                       expiresAt := n + sessionTTL, createdAt := n } := by
        simpa using hm
      rw [hx']
      exact ne_of_gt ht

lemma two_le_length_of_two_mem {α : Type} {l : List α} {a b : α}
    (ha : a ∈ l) (hb : b ∈ l) (hne : a ≠ b) : 2 ≤ l.length := by
  cases l with
  | nil => cases ha
  | cons x xs =>
    rcases List.mem_cons.1 ha with rfl | ha'
    · rcases List.mem_cons.1 hb with hbx | hb'
      · exact absurd hbx.symm hne
      · have := List.length_pos_of_mem hb'
        simp only [List.length_cons]
        omega
    · have := List.length_pos_of_mem ha'
      simp only [List.length_cons]
      omega

lemma find?_new_session {st : SessionsState} (hB : BoundedIds st) (u n : Nat) :
    (createSession st u n).1.sessions.find? (fun s => s.id == st.nextTokenId) =
      some { id := st.nextTokenId, userId := u,
             expiresAt := n + sessionTTL, createdAt := n } := by
  rw [createSession_fst]
  have hnone : (st.sessions.filter (fun s => s.userId != u)).find?
      (fun s => s.id == st.nextTokenId) = none := by
    refine List.find?_eq_none.2 ?_
    intro s hs
    have hlt := hB s (List.mem_of_mem_filter hs)
    simpa using ne_of_lt hlt
  rw [find?_append_sing _ hnone]
  simp

lemma resolvesTo_unique {st : SessionsState} {u : Nat}
    (hcount : countFor st u ≤ 1) {t1 t2 now : Nat}
    (h1 : resolvesTo st t1 u now) (h2 : resolvesTo st t2 u now) : t1 = t2 := by
  obtain ⟨s1, hs1, hu1⟩ := Option.map_eq_some'.1 h1
  obtain ⟨s2, hs2, hu2⟩ := Option.map_eq_some'.1 h2
  obtain ⟨hf1, -⟩ := getSession_snd_some hs1
  obtain ⟨hf2, -⟩ := getSession_snd_some hs2
  have m1 : s1 ∈ st.sessions := List.mem_of_find?_eq_some hf1
  have m2 : s2 ∈ st.sessions := List.mem_of_find?_eq_some hf2
  have id1 : s1.id = t1 := by simpa using List.find?_some hf1
  have id2 : s2.id = t2 := by simpa using List.find?_some hf2
  by_cases hss : s1 = s2
  · rw [← id1, ← id2, hss]
  · exfalso
    have hm1 : s1 ∈ st.sessions.filter (fun s => s.userId == u) :=
      List.mem_filter.2 ⟨m1, by simp [hu1]⟩
    have hm2 : s2 ∈ st.sessions.filter (fun s => s.userId == u) :=
      List.mem_filter.2 ⟨m2, by simp [hu2]⟩
    have h2m := two_le_length_of_two_mem hm1 hm2 hss
    unfold countFor at hcount
    omega

end SessionService

/-- Claim C2: along every sequence of session-store operations starting from
the empty store, each identity owns at most one session record, so at most
one token resolves to it at any instant; `createSession` deletes every
session of the identity before inserting the new one; and a token superseded
by a new login for its owner never resolves again, whatever operations
follow. -/
theorem single_session_per_user (ops : List SessionService.SOp) (u : Nat) :
    SessionService.countFor (SessionService.applySOps SessionService.initial ops) u ≤ 1
    ∧ (∀ now t1 t2 : Nat,
        SessionService.resolvesTo
          (SessionService.applySOps SessionService.initial ops) t1 u now →
        SessionService.resolvesTo
          (SessionService.applySOps SessionService.initial ops) t2 u now →
        t1 = t2)
    ∧ (∀ (st0 : SessionsState) (u0 n : Nat),
        ∀ s ∈ (SessionService.createSession st0 u0 n).1.sessions,
          s.userId = u0 → s.id = (SessionService.createSession st0 u0 n).2)
    ∧ (∀ t n : Nat,
        SessionService.ownerOf
          (SessionService.applySOps SessionService.initial ops) t = some u →
        ∀ (ops2 : List SessionService.SOp) (n2 : Nat),
          (SessionService.getSession
            (SessionService.applySOps
              (SessionService.applySOp
                (SessionService.applySOps SessionService.initial ops)
                (SessionService.SOp.create u n))
              ops2)
            t n2).2 = none) := by
  have hcount : ∀ v, SessionService.countFor
      (SessionService.applySOps SessionService.initial ops) v ≤ 1 :=
    SessionService.countFor_le_one_applySOps ops SessionService.initial
      (fun v => by rw [SessionService.countFor_initial]; exact Nat.zero_le 1)
  refine ⟨hcount u, ?_, ?_, ?_⟩
  · intro now t1 t2 h1 h2
    exact SessionService.resolvesTo_unique (hcount u) h1 h2
  · intro st0 u0 n s hs hsu
    rw [SessionService.createSession_fst] at hs
    rcases List.mem_append.1 hs with hm | hm
    · have hne : (s.userId != u0) = true := (List.mem_filter.1 hm).2
      rw [hsu] at hne
      simp [bne] at hne
    · have hs' : s = { id := st0.nextTokenId, userId := u0,
                       expiresAt := n + SessionService.sessionTTL,
                       createdAt := n } := by
        simpa using hm
      rw [hs', SessionService.createSession_snd]
  · intro t n hown ops2 n2
    have hWF : SessionService.WF (SessionService.applySOps SessionService.initial ops) :=
      SessionService.wf_applySOps ops SessionService.initial SessionService.wf_initial
    have hret : SessionService.Retired t
        (SessionService.applySOp
          (SessionService.applySOps SessionService.initial ops)
          (SessionService.SOp.create u n)) :=
      SessionService.retired_after_create hWF hown n
    have hret2 := SessionService.retired_applySOps ops2 _ hret
    exact SessionService.getSession_snd_none_of_notMem hret2.2.2 n2

/-- Concrete run of the single-session theorem: after identity 1 logs in
twice, the first token (0) no longer resolves. -/
theorem single_session_per_user_witness :
    (SessionService.getSession
      (SessionService.applySOps
        (SessionService.applySOp
          (SessionService.applySOps SessionService.initial
            [SessionService.SOp.create 1 0])
          (SessionService.SOp.create 1 5))
        [])
      0 6).2 = none :=
  (single_session_per_user [SessionService.SOp.create 1 0] 1).2.2.2 0 5
    (by decide) [] 6

/-- Claim C4 counterexample: a session created at time 0 with the 24-hour
TTL still resolves at the exact instant `t0 + TTL` (the code treats a
session as expired only when `expiresAt < now`, not `now ≥ expiresAt`), so
the claim "absent for all reads at `t ≥ t0+T`" fails at `t = t0+T`. -/
theorem session_resolves_at_exact_expiry :
    (SessionService.getSession
      (SessionService.createSession SessionService.initial 1 0).1
      (SessionService.createSession SessionService.initial 1 0).2
      SessionService.sessionTTL).2 ≠ none := by decide

/-- Claim C4 (amended): a session created at `t0` with TTL `T` resolves to
its record for every read at `t ≤ t0+T` and is absent for every read at
`t > t0+T`; an unknown token is absent; an expired record encountered on
read is deleted. -/
theorem session_expiration_behavior (st : SessionsState)
    (hB : SessionService.BoundedIds st) (u t0 : Nat) :
    (∀ t, t ≤ t0 + SessionService.sessionTTL →
      (SessionService.getSession (SessionService.createSession st u t0).1
        (SessionService.createSession st u t0).2 t).2 =
        some { id := st.nextTokenId, userId := u,
               expiresAt := t0 + SessionService.sessionTTL, createdAt := t0 })
    ∧ (∀ t, t0 + SessionService.sessionTTL < t →
        (SessionService.getSession (SessionService.createSession st u t0).1
          (SessionService.createSession st u t0).2 t).2 = none)
    ∧ (∀ (st' : SessionsState) (sid t : Nat),
        (∀ s ∈ st'.sessions, s.id ≠ sid) →
        (SessionService.getSession st' sid t).2 = none)
    ∧ (∀ (st' : SessionsState) (sid t : Nat) (s : Session),
        st'.sessions.find? (fun x => x.id == sid) = some s →
        s.expiresAt < t →
        (SessionService.getSession st' sid t).2 = none ∧
          ∀ x ∈ (SessionService.getSession st' sid t).1.sessions, x.id ≠ sid) := by
  refine ⟨?_, ?_, ?_, ?_⟩
  · intro t ht
    rw [SessionService.createSession_snd]
    unfold SessionService.getSession
    rw [SessionService.find?_new_session hB u t0]
    simp [Nat.not_lt.2 ht]
  · intro t ht
    rw [SessionService.createSession_snd]
    unfold SessionService.getSession
    rw [SessionService.find?_new_session hB u t0]
    simp [ht]
  · intro st' sid t h
    exact SessionService.getSession_snd_none_of_notMem h t
  · intro st' sid t s hf he
    have hst : SessionService.getSession st' sid t =
        (⟨st'.sessions.filter (fun x => x.id != sid), st'.nextTokenId⟩, none) := by
      unfold SessionService.getSession
      rw [hf]
      simp [he]
    rw [hst]
    refine ⟨rfl, ?_⟩
    intro x hx
    have hx2 : (x.id != sid) = true := (List.mem_filter.1 hx).2
    simpa [bne] using hx2

/-- Concrete run of the amended expiration theorem: a session created at 0
resolves at `t = TTL` and is gone at `t = TTL + 1`. -/
theorem session_expiration_behavior_witness :
    (SessionService.getSession
      (SessionService.createSession SessionService.initial 1 0).1
      (SessionService.createSession SessionService.initial 1 0).2
      SessionService.sessionTTL).2 =
      some { id := 0, userId := 1,
             expiresAt := SessionService.sessionTTL, createdAt := 0 }
    ∧ (SessionService.getSession
        (SessionService.createSession SessionService.initial 1 0).1
        (SessionService.createSession SessionService.initial 1 0).2
        (SessionService.sessionTTL + 1)).2 = none := by
  have h := session_expiration_behavior SessionService.initial
    (fun s hs => absurd hs (List.not_mem_nil s)) 1 0
  exact ⟨h.1 SessionService.sessionTTL (by omega), h.2.1 (SessionService.sessionTTL + 1) (by omega)⟩

/-! ### Claim C8: what state the guards touch -/

lemma getSession_fst_nextTokenId (st : SessionsState) (sid n : Nat) :
    (SessionService.getSession st sid n).1.nextTokenId = st.nextTokenId := by
  rcases SessionService.getSession_fst_cases st sid n with hc | hc <;> rw [hc]

lemma getSession_fst_sublist (st : SessionsState) (sid n : Nat) :
    (SessionService.getSession st sid n).1.sessions.Sublist st.sessions := by
  rcases SessionService.getSession_fst_cases st sid n with hc | hc <;> rw [hc]
  exact List.filter_sublist _

lemma getSession_fst_cases' (st : SessionsState) (sid n : Nat) :
    (SessionService.getSession st sid n).1 = st ∨
    ∃ s : Session, st.sessions.find? (fun x => x.id == sid) = some s ∧
      s.expiresAt < n ∧
      (SessionService.getSession st sid n).1 =
        ⟨st.sessions.filter (fun x => x.id != sid), st.nextTokenId⟩ := by
  unfold SessionService.getSession
  cases hf : st.sessions.find? (fun s => s.id == sid) with
  | none => left; rfl
  | some s =>
    by_cases he : s.expiresAt < n
    · right; exact ⟨s, rfl, he, by simp [he]⟩
    · left; simp [he]

lemma validateSession_fst (st : AppState) (sid now : Nat) :
    (AuthService.validateSession st sid now).1 =
      { st with sessions := (SessionService.getSession st.sessions sid now).1 } := by
  simp only [AuthService.validateSession]
  cases hsess : (SessionService.getSession st.sessions sid now).2 <;> rfl

lemma authGuard_fst_none {st : AppState} {req : Request} {now : Nat}
    (hc : req.cookieSessionId = none) :
    (Guards.authGuard st req now).1 = st := by
  simp [Guards.authGuard, hc]

lemma authGuard_fst_some {st : AppState} {req : Request} {now sid : Nat}
    (hc : req.cookieSessionId = some sid) :
    (Guards.authGuard st req now).1 =
      { st with sessions := (SessionService.getSession st.sessions sid now).1 } := by
  simp only [Guards.authGuard, hc]
  cases hsess : (AuthService.validateSession st sid now).2 <;>
    simpa using validateSession_fst st sid now

lemma adminUsersEndpoint_fst (st : AppState) (req : Request) (now : Nat) :
    (AuthController.adminUsersEndpoint st req now).1 =
      (Guards.authGuard st req now).1 := by
  simp only [AuthController.adminUsersEndpoint]
  cases hg : (Guards.authGuard st req now).2 with
  | reject e => simp
  | pass req1 =>
    simp only []
    cases hr : Guards.rolesGuard (Guards.authGuard st req now).1 req1
        (some [UserRole.admin]) <;> simp [hr]

/-- Claim C8 counterexample: a request carrying the token of an expired
session mutates the session store when the authentication guard runs — the
expired record is purged — so the guards do not always leave the stores
unchanged. -/
theorem auth_guard_purges_expired_session :
    (Guards.authGuard
      ⟨UsersService.initial, ⟨[{ id := 0, userId := 1, expiresAt := 5, createdAt := 0 }], 1⟩⟩
      { cookieSessionId := some 0, sessionUserId := none, user := none }
      10).1 ≠
    (⟨UsersService.initial,
      ⟨[{ id := 0, userId := 1, expiresAt := 5, createdAt := 0 }], 1⟩⟩ : AppState) := by
  decide

/-- Claim C8 (amended): for every request and state, the guard pipeline
leaves the credential store unchanged and never mints or alters sessions;
the only change to the session store is the eager deletion of records
bearing the request's token when the looked-up record is expired (the
purge-on-read the session store's own contract prescribes); the role-guard
stage changes nothing beyond that. -/
theorem guards_read_only (st : AppState) (req : Request) (now : Nat) :
    (Guards.authGuard st req now).1.users = st.users
    ∧ (Guards.authGuard st req now).1.sessions.nextTokenId = st.sessions.nextTokenId
    ∧ ((Guards.authGuard st req now).1.sessions.sessions).Sublist st.sessions.sessions
    ∧ (∀ s ∈ st.sessions.sessions,
        s ∉ (Guards.authGuard st req now).1.sessions.sessions →
        ∃ s' ∈ st.sessions.sessions, s'.id = s.id ∧ s'.expiresAt < now)
    ∧ (AuthController.adminUsersEndpoint st req now).1 = (Guards.authGuard st req now).1 := by
  rw [adminUsersEndpoint_fst]
  cases hc : req.cookieSessionId with
  | none =>
    rw [authGuard_fst_none hc]
    exact ⟨rfl, rfl, List.Sublist.refl _, fun s hs hns => absurd hs hns, rfl⟩
  | some sid =>
    rw [authGuard_fst_some hc]
    refine ⟨rfl, getSession_fst_nextTokenId st.sessions sid now,
            getSession_fst_sublist st.sessions sid now, ?_, rfl⟩
    intro s hs hns
    rcases getSession_fst_cases' st.sessions sid now with hcase | ⟨w, hf, he, hcase⟩
    · rw [hcase] at hns
      exact absurd hs hns
    · rw [hcase] at hns
      have hns' : s ∉ st.sessions.sessions.filter (fun x => x.id != sid) := hns
      have hsid : s.id = sid := by
        by_contra hne
        exact hns' (List.mem_filter.2 ⟨hs, by simpa [bne] using hne⟩)
      have hwid := List.find?_some hf
      simp only [beq_iff_eq] at hwid
      exact ⟨w, List.mem_of_find?_eq_some hf, by rw [hwid, hsid], he⟩

/-- Concrete run of the amended guard theorem at the purge state: the
credential store is untouched and the removed record was indeed expired. -/
theorem guards_read_only_witness :
    (Guards.authGuard
      ⟨UsersService.initial, ⟨[{ id := 0, userId := 1, expiresAt := 5, createdAt := 0 }], 1⟩⟩
      { cookieSessionId := some 0, sessionUserId := none, user := none }
      10).1.users = UsersService.initial
    ∧ ∃ s' ∈ [({ id := 0, userId := 1, expiresAt := 5, createdAt := 0 } : Session)],
        s'.id = 0 ∧ s'.expiresAt < 10 := by
  have h := guards_read_only
    ⟨UsersService.initial, ⟨[{ id := 0, userId := 1, expiresAt := 5, createdAt := 0 }], 1⟩⟩
    { cookieSessionId := some 0, sessionUserId := none, user := none } 10
  refine ⟨h.1, ?_⟩
  have h4 := h.2.2.2.1 { id := 0, userId := 1, expiresAt := 5, createdAt := 0 }
    (by decide) (by decide)
  obtain ⟨s', hs', hid, hexp⟩ := h4
  exact ⟨s', hs', hid, hexp⟩

/-! ### Claim C3: the role guard on `GET /admin/users` -/

/-- State and session cookie after the first account (`a@x.com`, which the
bootstrap policy makes admin) registers through `POST /auth/register`. -/
def adminDemo : AppState × Nat :=
  match AuthController.registerEndpoint AuthService.initialApp "a@x.com" "secret1" 0 with
  | .ok (st, tok, _) => (st, tok)
  | .error _ => (AuthService.initialApp, 0)

/-- State and session cookie after a second, standard account (`b@x.com`)
registers on top of `adminDemo`. -/
def userDemo : AppState × Nat :=
  match AuthController.registerEndpoint adminDemo.1 "b@x.com" "secret2" 1 with
  | .ok (st, tok, _) => (st, tok)
  | .error _ => (AuthService.initialApp, 0)

/-- Claim C3, evaluated at the failing input: identity 1 is privileged and
its session cookie is valid (the authentication guard resolves it), yet
`GET /admin/users` rejects it with `ForbiddenException('Not authenticated')`
— because `RolesGuard` reads `request.session?.userId`, which no installed
middleware ever sets, instead of the identity the authentication guard
attached.  The standard-role identity is likewise rejected with
`'Not authenticated'`, not `'Insufficient permissions'`. -/
theorem admin_route_misreads_session_source :
    (UsersService.findById adminDemo.1.users 1).map (fun u => u.role)
      = some UserRole.admin
    ∧ ((AuthService.validateSession adminDemo.1 adminDemo.2 1).2).map
        (fun u => u.role) = some UserRole.admin
    ∧ (AuthController.adminUsersEndpoint adminDemo.1
        { cookieSessionId := some adminDemo.2, sessionUserId := none,
          user := none } 1).2
      = .error (.forbidden "Not authenticated")
    ∧ (AuthController.adminUsersEndpoint userDemo.1
        { cookieSessionId := some userDemo.2, sessionUserId := none,
          user := none } 2).2
      = .error (.forbidden "Not authenticated") :=
  ⟨rfl, rfl, rfl, rfl⟩

/-! ### Claim C9: secret material in returned identities -/

/-- State after the first account registers through `AuthService.register`
(no session yet). -/
def regDemo : AppState :=
  match AuthService.register AuthService.initialApp "a@x.com" "secret1" 0 with
  | .ok (st, _) => st
  | .error _ => AuthService.initialApp

/-- Claim C9 counterexample: the user value inside a successful
`AuthService.login` result still carries the password hash — the service
returns the full entity and only the controller strips it. -/
theorem login_result_carries_secret :
    (AuthService.login regDemo "a@x.com" "secret1" 1).toOption.map
      (fun r => r.2.1.password) = some (some (bcryptHash "secret1")) := rfl

lemma login_ok_inv {st : AppState} {e p : String} {n : Nat} {st' : AppState}
    {u' : User} {tok : Nat}
    (h : AuthService.login st e p n = .ok (st', u', tok)) :
    UsersService.findByEmail st.users e = some u' := by
  cases hf : UsersService.findByEmail st.users e with
  | none =>
    unfold AuthService.login at h
    rw [hf] at h
    cases h
  | some w =>
    unfold AuthService.login at h
    rw [hf] at h
    by_cases hv : UsersService.validatePassword w p = true
    · simp [hv] at h
      exact congrArg some h.2.1
    · have hv' : UsersService.validatePassword w p = false := by simpa using hv
      simp [hv'] at h

/-- Claim C9 (amended): the HTTP-boundary responses are sanitized — the user
listing replaces every password with `undefined`, and the login endpoint's
body is the `{id, email, role}` projection of the stored identity, a shape
with no secret field at all; the `AuthService.login` value itself, however,
does carry the hash (see the counterexample). -/
theorem http_responses_sanitized :
    (∀ ust : UsersState, ∀ u ∈ UsersService.findAll ust, u.password = none)
    ∧ (∀ (st : AppState) (e p : String) (n : Nat) (st1 : AppState) (tok : Nat)
        (pu : AuthController.PublicUser),
        AuthController.loginEndpoint st e p n = .ok (st1, tok, pu) →
        ∃ u : User, UsersService.findByEmail st.users e = some u ∧
          pu = AuthController.toPublic u)
    ∧ (∀ u : User, AuthController.toPublic u = ⟨u.id, u.email, u.role⟩) := by
  refine ⟨?_, ?_, fun u => rfl⟩
  · intro ust u hu
    obtain ⟨v, hv, hvu⟩ := List.mem_map.1 hu
    rw [← hvu]
  · intro st e p n st1 tok pu hep
    cases hlog : AuthService.login st e p n with
    | error err =>
      unfold AuthController.loginEndpoint at hep
      rw [hlog] at hep
      cases hep
    | ok r =>
      obtain ⟨st', u', tok'⟩ := r
      unfold AuthController.loginEndpoint at hep
      rw [hlog] at hep
      have hpu : pu = AuthController.toPublic u' := by
        have := congrArg (fun x => match x with
          | Except.ok (_, _, b) => some b
          | Except.error _ => none) hep
        simpa using this.symm
      exact ⟨u', login_ok_inv hlog, hpu⟩

/-- Concrete run of the sanitization theorem: the login endpoint's body for
the bootstrap admin is the projection of the stored identity. -/
theorem http_responses_sanitized_witness :
    ∃ u : User, UsersService.findByEmail regDemo.users "a@x.com" = some u ∧
      (⟨1, "a@x.com", UserRole.admin⟩ : AuthController.PublicUser)
        = AuthController.toPublic u :=
  http_responses_sanitized.2.1 regDemo "a@x.com" "secret1" 1 _ _ _ rfl

/-! ### Claim C10: registration through the HTTP endpoint logs the user in -/

lemma findByEmail_append {us : UsersState} {e : String}
    (hf : UsersService.findByEmail us e = none) (p : String) (n : Nat) :
    UsersService.findByEmail
      (⟨us.users ++ [mkUser us e p n], us.userIdCounter + 1⟩ : UsersState) e
      = some (mkUser us e p n) := by
  have hf0 : List.find? (fun v => v.email == e) us.users = none := hf
  show List.find? (fun v => v.email == e) (us.users ++ [mkUser us e p n])
    = some (mkUser us e p n)
  rw [find?_append_sing _ hf0]
  simp [mkUser]

lemma findById_append {us : UsersState}
    (hfresh : ∀ u ∈ us.users, u.id ≠ us.userIdCounter) (e p : String) (n : Nat) :
    UsersService.findById
      (⟨us.users ++ [mkUser us e p n], us.userIdCounter + 1⟩ : UsersState)
      us.userIdCounter = some (mkUser us e p n) := by
  have hf0 : List.find? (fun v => v.id == us.userIdCounter) us.users = none :=
    List.find?_eq_none.2 (fun v hv => by simpa using hfresh v hv)
  show List.find? (fun v => v.id == us.userIdCounter)
    (us.users ++ [mkUser us e p n]) = some (mkUser us e p n)
  rw [find?_append_sing _ hf0]
  simp [mkUser]

lemma getSession_fresh {st : SessionsState} (hB : SessionService.BoundedIds st)
    (u n : Nat) :
    (SessionService.getSession (SessionService.createSession st u n).1
      st.nextTokenId n).2 =
      some { id := st.nextTokenId, userId := u,
             expiresAt := n + SessionService.sessionTTL, createdAt := n } := by
  unfold SessionService.getSession
  rw [SessionService.find?_new_session hB u n]
  simp [Nat.not_lt.2 (Nat.le_add_right n SessionService.sessionTTL)]

/-- Claim C10: a successful `POST /auth/register` does more than create the
identity — the controller immediately calls `login` with the same
credentials and sets the `sessionId` cookie, so right after the call a live
session owned by the new identity exists and its token resolves back to
that identity, with no separate login. -/
theorem register_endpoint_creates_session (st : AppState) (e p : String) (n : Nat)
    (hfree : UsersService.findByEmail st.users e = none)
    (hfresh : ∀ u ∈ st.users.users, u.id ≠ st.users.userIdCounter)
    (hB : SessionService.BoundedIds st.sessions) :
    ∃ (st2 : AppState) (tok : Nat) (pu : AuthController.PublicUser),
      AuthController.registerEndpoint st e p n = .ok (st2, tok, pu) ∧
      SessionService.ownerOf st2.sessions tok = some pu.id ∧
      ∃ u : User, (AuthService.validateSession st2 tok n).2 = some u ∧
        u.id = pu.id ∧ u.email = pu.email ∧ u.role = pu.role := by
  have hreg := register_of_notFound hfree p n
  have hfind := findByEmail_append hfree p n
  have hgood : UsersService.validatePassword (mkUser st.users e p n) p = true := by
    simp [UsersService.validatePassword, mkUser, bcryptCompare]
  have hlog := @login_of_found_good
    { st with users := ⟨st.users.users ++ [mkUser st.users e p n],
                        st.users.userIdCounter + 1⟩ }
    e p (mkUser st.users e p n) n hfind hgood
  refine ⟨{ users := ⟨st.users.users ++ [mkUser st.users e p n],
                      st.users.userIdCounter + 1⟩,
            sessions := (SessionService.createSession st.sessions
              (mkUser st.users e p n).id n).1 },
          st.sessions.nextTokenId,
          AuthController.toPublic (mkUser st.users e p n), ?_, ?_, ?_⟩
  · simp only [AuthController.registerEndpoint, hreg, hlog]
    rfl
  · show SessionService.ownerOf
      (SessionService.createSession st.sessions
        (mkUser st.users e p n).id n).1
      st.sessions.nextTokenId = some (mkUser st.users e p n).id
    unfold SessionService.ownerOf
    rw [SessionService.find?_new_session hB (mkUser st.users e p n).id n]
    rfl
  · refine ⟨mkUser st.users e p n, ?_, rfl, rfl, rfl⟩
    show (AuthService.validateSession
      { users := ⟨st.users.users ++ [mkUser st.users e p n],
                  st.users.userIdCounter + 1⟩,
        sessions := (SessionService.createSession st.sessions
          (mkUser st.users e p n).id n).1 }
      st.sessions.nextTokenId n).2 = some (mkUser st.users e p n)
    simp only [AuthService.validateSession]
    rw [getSession_fresh hB (mkUser st.users e p n).id n]
    exact findById_append hfresh e p n

/-- Concrete run of the auto-login theorem: registering the very first
account through the endpoint leaves a session resolving to it. -/
theorem register_endpoint_creates_session_witness :
    ∃ (st2 : AppState) (tok : Nat) (pu : AuthController.PublicUser),
      AuthController.registerEndpoint AuthService.initialApp "a@x.com" "secret1" 0
        = .ok (st2, tok, pu) ∧
      SessionService.ownerOf st2.sessions tok = some pu.id ∧
      ∃ u : User, (AuthService.validateSession st2 tok 0).2 = some u ∧
        u.id = pu.id ∧ u.email = pu.email ∧ u.role = pu.role :=
  register_endpoint_creates_session AuthService.initialApp "a@x.com" "secret1" 0
    rfl (fun u hu => absurd hu (List.not_mem_nil u))
    (fun s hs => absurd hs (List.not_mem_nil s))
